import Mathlib

/-!
# jps: bouncing-ball demo, session state machine and physics integrator

Shallow embedding of `src/main.go`.

Modelling conventions
* The program is embedded twice as far as `float64` is concerned. In the exact model
  (`Settings`, `Ball`, `physicsStep`, `Update`) a `float64` is a rational and `+`, `-`, `*`
  do not round; it carries the statements that read the same under the code's own
  operations. In the binary64 model (`F64`, `Settings64`, `Ball64`, `physicsStep64`) the
  same lines are taken with IEEE 754 rounding to nearest, ties to even; it decides what
  depends on the values themselves.
* Go `int` is `Int` with explicit two's-complement wraparound at 64 bits (`wrapInt64`),
  and Go's `%` is the truncating remainder (`goRem`).
* `inpututil.IsKeyJustPressed` is an external collaborator: one tick's answers for the six
  keys the program asks about are the record `Keys`.
* `*Ball` is `Option Ball`; dereferencing `nil` and `os.Exit(0)` are outcomes of a tick.
-/

namespace Jps

/-! ## Data model -/

/-- Constant `screenWidth` of the source, used as a float in the physics. -/
def screenWidth : ℚ := 640

/-- Constant `screenHeight` of the source, used as a float in the physics. -/
def screenHeight : ℚ := 480

/-- Value of `color.RGBA`; the program only stores and copies colours. -/
structure RGBA where
  r : Nat
  g : Nat
  b : Nat
  a : Nat
  deriving DecidableEq, Repr

/-- Record `Settings` of the source. -/
structure Settings where
  gravity : ℚ
  bounceFactor : ℚ
  ballSpeed : ℚ
  ballSize : ℚ
  ballColor : RGBA
  deriving DecidableEq, Repr

/-- Record `Ball` of the source. -/
@[ext]
structure Ball where
  x : ℚ
  y : ℚ
  velocityX : ℚ
  velocityY : ℚ
  radius : ℚ
  color : RGBA
  deriving DecidableEq, Repr

/-- Enumeration `GameState` of the source. -/
inductive GameState where
  | StateMainMenu
  | StateSettings
  | StatePlaying
  deriving DecidableEq, Repr

/-- Record `Game` of the source; `ball` is a pointer that may be nil. -/
structure Game where
  state : GameState
  ball : Option Ball
  settings : Settings
  menuItem : Int
  settingsItem : Int
  deriving DecidableEq, Repr

/-- Answers of `inpututil.IsKeyJustPressed` during one tick. -/
structure Keys where
  down : Bool
  up : Bool
  enter : Bool
  escape : Bool
  right : Bool
  left : Bool
  deriving DecidableEq, Repr

/-- Logical events of the input collaborator. -/
inductive Event where
  | Up
  | Down
  | Select
  | Back
  | Increase
  | Decrease
  deriving DecidableEq, Repr

/-- No key was pressed during the tick. -/
def noKeys : Keys :=
  { down := false, up := false, enter := false, escape := false, right := false, left := false }

/-- One logical event is the press of exactly one key during the tick. -/
def Event.keys : Event → Keys
  | .Up => { noKeys with up := true }
  | .Down => { noKeys with down := true }
  | .Select => { noKeys with enter := true }
  | .Back => { noKeys with escape := true }
  | .Increase => { noKeys with right := true }
  | .Decrease => { noKeys with left := true }

/-- What one call of `Update` does to the process: it returns (with a nil error) leaving a
new state, it ends the process through `os.Exit(0)`, or it dereferences a nil ball. -/
inductive Outcome where
  | running (g : Game)
  | exited
  | nilDeref
  deriving DecidableEq, Repr

/-! ## Machine integers -/

/-- Two's-complement wraparound of a Go `int` (64 bits). -/
def wrapInt64 (z : Int) : Int := (z + 2 ^ 63) % 2 ^ 64 - 2 ^ 63

/-- Go's `%` on integers: remainder of the truncating division. -/
def goRem (a b : Int) : Int := Int.tmod a b

/-! ## Operations -/

/-- Function `NewGame` of the source. -/
def NewGame : Game :=
  { state := .StateMainMenu
    ball := none
    settings :=
      { gravity := 0.5
        bounceFactor := 0.7
        ballSpeed := 3.0
        ballSize := 20.0
        ballColor := { r := 255, g := 0, b := 0, a := 255 } }
    menuItem := 0
    settingsItem := 0 }

/-- Function `NewBall` of the source. -/
def NewBall (settings : Settings) : Ball :=
  { x := screenWidth / 2
    y := screenHeight / 4
    velocityX := settings.ballSpeed
    velocityY := 0
    radius := settings.ballSize
    color := settings.ballColor }

/-- Method `updateMainMenu` of the source. -/
def updateMainMenu (g : Game) (k : Keys) : Outcome :=
  let g1 : Game :=
    if k.down then { g with menuItem := goRem (wrapInt64 (g.menuItem + 1)) 3 } else g
  let g2 : Game :=
    if k.up then
      { g1 with menuItem := goRem (wrapInt64 (wrapInt64 (g1.menuItem - 1) + 3)) 3 }
    else g1
  if k.enter then
    if g2.menuItem = 0 then
      .running { g2 with ball := some (NewBall g2.settings), state := .StatePlaying }
    else if g2.menuItem = 1 then
      .running { g2 with state := .StateSettings }
    else if g2.menuItem = 2 then
      .exited
    else .running g2
  else .running g2

/-- The `switch` of `updateSettings` under `KeyRight`. -/
def increaseSetting (s : Settings) (item : Int) : Settings :=
  if item = 0 then { s with gravity := s.gravity + 0.1 }
  else if item = 1 then { s with bounceFactor := s.bounceFactor + 0.1 }
  else if item = 2 then { s with ballSpeed := s.ballSpeed + 0.5 }
  else if item = 3 then { s with ballSize := s.ballSize + 5 }
  else s

/-- The `switch` of `updateSettings` under `KeyLeft`. -/
def decreaseSetting (s : Settings) (item : Int) : Settings :=
  if item = 0 then { s with gravity := s.gravity - 0.1 }
  else if item = 1 then { s with bounceFactor := s.bounceFactor - 0.1 }
  else if item = 2 then { s with ballSpeed := s.ballSpeed - 0.5 }
  else if item = 3 then { s with ballSize := s.ballSize - 5 }
  else s

/-- Method `updateSettings` of the source. -/
def updateSettings (g : Game) (k : Keys) : Outcome :=
  let g1 : Game :=
    if k.down then { g with settingsItem := goRem (wrapInt64 (g.settingsItem + 1)) 5 } else g
  let g2 : Game :=
    if k.up then
      { g1 with settingsItem := goRem (wrapInt64 (wrapInt64 (g1.settingsItem - 1) + 5)) 5 }
    else g1
  let g3 : Game := if k.escape then { g2 with state := .StateMainMenu } else g2
  let g4 : Game :=
    if k.right then { g3 with settings := increaseSetting g3.settings g3.settingsItem } else g3
  let g5 : Game :=
    if k.left then { g4 with settings := decreaseSetting g4.settings g4.settingsItem } else g4
  .running g5

/-- The body of `updateGame` after the Escape guard: one physics step on the ball, reading
`gravity` and `bounceFactor` from the settings. -/
def physicsStep (st : Settings) (b : Ball) : Ball :=
  -- Apply gravity
  let b1 : Ball := { b with velocityY := b.velocityY + st.gravity }
  -- Update position
  let b2 : Ball := { b1 with x := b1.x + b1.velocityX }
  let b3 : Ball := { b2 with y := b2.y + b2.velocityY }
  -- Bounce off walls
  let b4 : Ball :=
    if b3.x - b3.radius ≤ 0 ∨ b3.x + b3.radius ≥ screenWidth then
      let c1 : Ball := { b3 with velocityX := b3.velocityX * -st.bounceFactor }
      let c2 : Ball := if c1.x < c1.radius then { c1 with x := c1.radius } else c1
      if c2.x > screenWidth - c2.radius then { c2 with x := screenWidth - c2.radius } else c2
    else b3
  -- Bounce off floor and ceiling
  if b4.y - b4.radius ≤ 0 ∨ b4.y + b4.radius ≥ screenHeight then
    let c1 : Ball := { b4 with velocityY := b4.velocityY * -st.bounceFactor }
    let c2 : Ball := if c1.y < c1.radius then { c1 with y := c1.radius } else c1
    if c2.y > screenHeight - c2.radius then { c2 with y := screenHeight - c2.radius } else c2
  else b4

/-- Method `updateGame` of the source. -/
def updateGame (g : Game) (k : Keys) : Outcome :=
  if k.escape then .running { g with state := .StateMainMenu }
  else
    match g.ball with
    | none => .nilDeref
    | some b => .running { g with ball := some (physicsStep g.settings b) }

/-- Method `Update` of the source. -/
def Update (g : Game) (k : Keys) : Outcome :=
  match g.state with
  | .StateMainMenu => updateMainMenu g k
  | .StateSettings => updateSettings g k
  | .StatePlaying => updateGame g k

/-- Repeated physics steps under fixed settings. -/
def stepN (st : Settings) : Nat → Ball → Ball
  | 0, b => b
  | n + 1, b => physicsStep st (stepN st n b)

/-- Successive calls of `Update`, one per tick; the driver stops at the first tick that does
not return. -/
def runTicks : Game → List Keys → Outcome
  | g, [] => .running g
  | g, k :: ks =>
    match Update g k with
    | .running g1 => runTicks g1 ks
    | .exited => .exited
    | .nilDeref => .nilDeref

/-- The same event delivered on `n` successive ticks. -/
def repeatEvent (e : Event) (n : Nat) : List Keys := List.replicate n e.keys

/-! ## Binary64 arithmetic -/

/-- A finite `float64` value, `man * 2 ^ exp`. Infinities and NaN are outside this model,
and so is overflow: no operation below is used beyond the largest finite value. -/
structure F64 where
  man : Int
  exp : Int
  deriving DecidableEq, Repr

/-- The rational number a finite `float64` stands for. -/
def F64.toRat (f : F64) : ℚ := (f.man : ℚ) * 2 ^ f.exp.toNat / 2 ^ (-f.exp).toNat

/-- Number of binary digits of `n`, counted in at most `fuel` rounds, each taking off 64
digits of a large number or one digit of a small one. -/
def bitLengthAux : Nat → Nat → Nat
  | 0, _ => 0
  | fuel + 1, n =>
    if n = 0 then 0
    else if n < 2 ^ 64 then bitLengthAux fuel (n / 2) + 1
    else bitLengthAux fuel (n / 2 ^ 64) + 64

/-- Number of binary digits of `n`. -/
def bitLength (n : Nat) : Nat := bitLengthAux n n

/-- The quotient `n / 2 ^ k` rounded to the nearest integer, a tie going to the even one. -/
def roundShift (n k : Nat) : Nat :=
  let q := n / 2 ^ k
  let r := n % 2 ^ k
  if 2 * r < 2 ^ k then q
  else if 2 * r > 2 ^ k then q + 1
  else if q % 2 = 0 then q else q + 1

/-- Rounding of the exact value `m * 2 ^ e` to binary64: at most 53 significant bits, no
exponent below -1074 (the subnormal grid), nearest value, ties to even. -/
def F64.round (m e : Int) : F64 :=
  let n := m.natAbs
  let k : Nat := (max ((bitLength n : Int) - 53) (-1074 - e)).toNat
  let n1 : Int := (roundShift n k : Int)
  { man := if m < 0 then -n1 else n1, exp := e + (k : Int) }

/-- The `float64` sum: the exact sum, rounded. -/
def F64.add (a b : F64) : F64 :=
  let e := min a.exp b.exp
  F64.round (a.man * ((2 ^ (a.exp - e).toNat : Nat) : Int) +
    b.man * ((2 ^ (b.exp - e).toNat : Nat) : Int)) e

/-- The `float64` negation, which is exact. -/
def F64.neg (a : F64) : F64 := { man := -a.man, exp := a.exp }

/-- The `float64` difference: the exact difference, rounded. -/
def F64.sub (a b : F64) : F64 := F64.add a (F64.neg b)

/-- The `float64` product: the exact product, rounded. -/
def F64.mul (a b : F64) : F64 := F64.round (a.man * b.man) (a.exp + b.exp)

/-- The `float64` comparison `a <= b`, on the two values brought to a common exponent. -/
def F64.le (a b : F64) : Prop :=
  a.man * ((2 ^ (a.exp - min a.exp b.exp).toNat : Nat) : Int) ≤
    b.man * ((2 ^ (b.exp - min a.exp b.exp).toNat : Nat) : Int)

instance (a b : F64) : Decidable (F64.le a b) := by
  unfold F64.le
  infer_instance

/-- The `float64` comparison `a < b`, on the two values brought to a common exponent. -/
def F64.lt (a b : F64) : Prop :=
  a.man * ((2 ^ (a.exp - min a.exp b.exp).toNat : Nat) : Int) <
    b.man * ((2 ^ (b.exp - min a.exp b.exp).toNat : Nat) : Int)

instance (a b : F64) : Decidable (F64.lt a b) := by
  unfold F64.lt
  infer_instance

/-- An integer constant of the source as a `float64`; exact below `2 ^ 53`. -/
def F64.ofInt (n : Int) : F64 := { man := n, exp := 0 }

/-- The constant `0.1` of the source: the `float64` nearest to one tenth,
`0x1.999999999999ap-4`. -/
def F64.tenth : F64 := { man := 3602879701896397, exp := -55 }

/-- The constant `0.5` of the source, exact in binary64. -/
def F64.half : F64 := { man := 1, exp := -1 }

/-- The constant `0.7` of the source: the `float64` nearest to seven tenths,
`0x1.6666666666666p-1`. -/
def F64.sevenTenths : F64 := { man := 3152519739159347, exp := -52 }

/-- The smallest positive `float64`, `2 ^ -1074`, printed 5e-324. -/
def F64.tiny : F64 := { man := 1, exp := -1074 }

/-- Record `Settings` of the source, its `float64` fields in binary64. -/
structure Settings64 where
  gravity : F64
  bounceFactor : F64
  ballSpeed : F64
  ballSize : F64
  ballColor : RGBA
  deriving DecidableEq, Repr

/-- Record `Ball` of the source, its `float64` fields in binary64. -/
structure Ball64 where
  x : F64
  y : F64
  velocityX : F64
  velocityY : F64
  radius : F64
  color : RGBA
  deriving DecidableEq, Repr

/-- The settings of `NewGame` in binary64. -/
def defaultSettings64 : Settings64 :=
  { gravity := F64.half
    bounceFactor := F64.sevenTenths
    ballSpeed := F64.ofInt 3
    ballSize := F64.ofInt 20
    ballColor := { r := 255, g := 0, b := 0, a := 255 } }

/-- The `switch` of `updateSettings` under `KeyRight`, in binary64. -/
def increaseSetting64 (s : Settings64) (item : Int) : Settings64 :=
  if item = 0 then { s with gravity := F64.add s.gravity F64.tenth }
  else if item = 1 then { s with bounceFactor := F64.add s.bounceFactor F64.tenth }
  else if item = 2 then { s with ballSpeed := F64.add s.ballSpeed F64.half }
  else if item = 3 then { s with ballSize := F64.add s.ballSize (F64.ofInt 5) }
  else s

/-- The `switch` of `updateSettings` under `KeyLeft`, in binary64. -/
def decreaseSetting64 (s : Settings64) (item : Int) : Settings64 :=
  if item = 0 then { s with gravity := F64.sub s.gravity F64.tenth }
  else if item = 1 then { s with bounceFactor := F64.sub s.bounceFactor F64.tenth }
  else if item = 2 then { s with ballSpeed := F64.sub s.ballSpeed F64.half }
  else if item = 3 then { s with ballSize := F64.sub s.ballSize (F64.ofInt 5) }
  else s

/-- The body of `updateGame` after the Escape guard, in binary64. -/
def physicsStep64 (st : Settings64) (b : Ball64) : Ball64 :=
  -- Apply gravity
  let b1 : Ball64 := { b with velocityY := F64.add b.velocityY st.gravity }
  -- Update position
  let b2 : Ball64 := { b1 with x := F64.add b1.x b1.velocityX }
  let b3 : Ball64 := { b2 with y := F64.add b2.y b2.velocityY }
  -- Bounce off walls
  let b4 : Ball64 :=
    if F64.le (F64.sub b3.x b3.radius) (F64.ofInt 0) ∨
        F64.le (F64.ofInt 640) (F64.add b3.x b3.radius) then
      let c1 : Ball64 := { b3 with velocityX := F64.mul b3.velocityX (F64.neg st.bounceFactor) }
      let c2 : Ball64 := if F64.lt c1.x c1.radius then { c1 with x := c1.radius } else c1
      if F64.lt (F64.sub (F64.ofInt 640) c2.radius) c2.x then
        { c2 with x := F64.sub (F64.ofInt 640) c2.radius }
      else c2
    else b3
  -- Bounce off floor and ceiling
  if F64.le (F64.sub b4.y b4.radius) (F64.ofInt 0) ∨
      F64.le (F64.ofInt 480) (F64.add b4.y b4.radius) then
    let c1 : Ball64 := { b4 with velocityY := F64.mul b4.velocityY (F64.neg st.bounceFactor) }
    let c2 : Ball64 := if F64.lt c1.y c1.radius then { c1 with y := c1.radius } else c1
    if F64.lt (F64.sub (F64.ofInt 480) c2.radius) c2.y then
      { c2 with y := F64.sub (F64.ofInt 480) c2.radius }
    else c2
  else b4

/-- The horizontal wall test of a binary64 step fires. -/
def firesX64 (b : Ball64) : Prop :=
  F64.le (F64.sub (F64.add b.x b.velocityX) b.radius) (F64.ofInt 0) ∨
    F64.le (F64.ofInt 640) (F64.add (F64.add b.x b.velocityX) b.radius)

instance (b : Ball64) : Decidable (firesX64 b) := by
  unfold firesX64
  infer_instance

/-- The vertical wall test of a binary64 step fires. -/
def firesY64 (st : Settings64) (b : Ball64) : Prop :=
  F64.le (F64.sub (F64.add b.y (F64.add b.velocityY st.gravity)) b.radius) (F64.ofInt 0) ∨
    F64.le (F64.ofInt 480)
      (F64.add (F64.add b.y (F64.add b.velocityY st.gravity)) b.radius)

instance (st : Settings64) (b : Ball64) : Decidable (firesY64 st b) := by
  unfold firesY64
  infer_instance

/-- The default settings after eight Decrease events on bounceFactor, in binary64. -/
def negativeBounce64 : Settings64 := (fun s => decreaseSetting64 s 1)^[8] defaultSettings64

/-- The ball moving right of the exact model, in binary64. -/
def rightBall64 : Ball64 :=
  { x := F64.ofInt 610, y := F64.ofInt 200, velocityX := F64.ofInt 15, velocityY := F64.ofInt 0
    radius := F64.ofInt 20, color := { r := 255, g := 0, b := 0, a := 255 } }

/-- A ball of radius 20 touching the right wall and moving right at the smallest positive
speed. -/
def tinyBall64 : Ball64 :=
  { x := F64.ofInt 620, y := F64.ofInt 200, velocityX := F64.tiny, velocityY := F64.ofInt 0
    radius := F64.ofInt 20, color := { r := 255, g := 0, b := 0, a := 255 } }

/-! ## Vocabulary of the statements -/

/-- The two clamping `if`s of a wall block, on either axis: `p` is the position after
integration, `bound` the screen extent on that axis. -/
def clampAxis (p radius bound : ℚ) : ℚ :=
  let q := if p < radius then radius else p
  if q > bound - radius then bound - radius else q

/-- The condition of a wall block, on either axis, at the position `p` after integration. -/
def wallTest (p radius bound : ℚ) : Prop := p - radius ≤ 0 ∨ p + radius ≥ bound

instance (p radius bound : ℚ) : Decidable (wallTest p radius bound) := by
  unfold wallTest
  infer_instance

/-- Position `q` is the one of the two boundary values `radius` and `bound - radius` that is
nearer to `p`. -/
def nearerBoundary (q p radius bound : ℚ) : Prop :=
  (q = radius ∨ q = bound - radius) ∧ |q - p| ≤ |radius - p| ∧ |q - p| ≤ |bound - radius - p|

instance (q p radius bound : ℚ) : Decidable (nearerBoundary q p radius bound) := by
  unfold nearerBoundary
  infer_instance

/-- The horizontal wall test of a step fires: the condition of the first wall block, read
at the position after integration. -/
def firesX (b : Ball) : Prop := wallTest (b.x + b.velocityX) b.radius screenWidth

instance (b : Ball) : Decidable (firesX b) := by
  unfold firesX
  infer_instance

/-- The vertical wall test of a step fires: the condition of the second wall block, read at
the position after integration with the velocity that already includes gravity. -/
def firesY (st : Settings) (b : Ball) : Prop :=
  wallTest (b.y + (b.velocityY + st.gravity)) b.radius screenHeight

instance (st : Settings) (b : Ball) : Decidable (firesY st b) := by
  unfold firesY
  infer_instance

/-- Colour of the default settings. -/
def red : RGBA := { r := 255, g := 0, b := 0, a := 255 }

/-- A ball of radius 400, wider than the screen, at rest at x = 500. -/
def wideBall : Ball :=
  { x := 500, y := 240, velocityX := 0, velocityY := 0, radius := 400, color := red }

/-- The ball of the straight-drop scenario. -/
def dropBall : Ball :=
  { x := 320, y := 120, velocityX := 0, velocityY := 0, radius := 20, color := red }

/-- A ball at rest against the left wall. -/
def restBall : Ball :=
  { x := 20, y := 200, velocityX := 0, velocityY := 0, radius := 20, color := red }

/-- A ball moving right that reaches the right wall in one step. -/
def rightBall : Ball :=
  { x := 610, y := 200, velocityX := 15, velocityY := 0, radius := 20, color := red }

/-- The settings screen as reached from the initial session by Down, Select, Down: default
settings, cursor on bounceFactor. -/
def bounceScreen : Game :=
  { NewGame with state := .StateSettings, menuItem := 1, settingsItem := 1 }

/-- The settings screen with the cursor on its fifth item, "Back to Main Menu". -/
def backItemScreen : Game :=
  { NewGame with state := .StateSettings, menuItem := 1, settingsItem := 4 }

/-- A session in play with the ball moving right, under the default settings. -/
def playingRight : Game := { NewGame with state := .StatePlaying, ball := some rightBall }

/-- Both cursors are inside their menus: `menuItem` in [0, 3), `settingsItem` in [0, 5). -/
def cursorInv (g : Game) : Prop :=
  0 ≤ g.menuItem ∧ g.menuItem < 3 ∧ 0 ≤ g.settingsItem ∧ g.settingsItem < 5

instance (g : Game) : Decidable (cursorInv g) := by
  unfold cursorInv
  infer_instance

/-- In screen Playing the ball exists and is the new ball of the current settings, stepped
some number of times under the current settings. -/
def lifetimeInv (g : Game) : Prop :=
  g.state = .StatePlaying → ∃ n : Nat, g.ball = some (stepN g.settings n (NewBall g.settings))

/-- The session after Select on the initial session and one tick of play. -/
def firstStep : Game :=
  { NewGame with
    state := .StatePlaying
    ball := some (physicsStep NewGame.settings (NewBall NewGame.settings)) }

/-- A session in play that agrees with `playingRight` on the ball's position, velocity and
radius and on gravity and bounceFactor, and differs in everything else. -/
def playingRightOther : Game :=
  { state := .StatePlaying
    ball := some { rightBall with color := { r := 0, g := 0, b := 255, a := 255 } }
    settings :=
      { NewGame.settings with
        ballSpeed := 7
        ballSize := 55
        ballColor := { r := 0, g := 255, b := 0, a := 255 } }
    menuItem := 2
    settingsItem := 3 }

/-- Up and Down pressed during the same tick. -/
def bothArrows : Keys := { noKeys with up := true, down := true }

/-! ## Projections of one physics step -/

theorem physicsStep_radius (st : Settings) (b : Ball) : (physicsStep st b).radius = b.radius := by
  unfold physicsStep
  simp only []
  split_ifs <;> rfl

theorem physicsStep_color (st : Settings) (b : Ball) : (physicsStep st b).color = b.color := by
  unfold physicsStep
  simp only []
  split_ifs <;> rfl

theorem physicsStep_x (st : Settings) (b : Ball) :
    (physicsStep st b).x =
      if b.x + b.velocityX - b.radius ≤ 0 ∨ b.x + b.velocityX + b.radius ≥ screenWidth then
        clampAxis (b.x + b.velocityX) b.radius screenWidth
      else b.x + b.velocityX := by
  unfold physicsStep clampAxis
  simp only []
  split_ifs <;> rfl

theorem physicsStep_velocityX (st : Settings) (b : Ball) :
    (physicsStep st b).velocityX =
      if b.x + b.velocityX - b.radius ≤ 0 ∨ b.x + b.velocityX + b.radius ≥ screenWidth then
        b.velocityX * -st.bounceFactor
      else b.velocityX := by
  unfold physicsStep
  simp only []
  split_ifs <;> rfl

theorem physicsStep_y (st : Settings) (b : Ball) :
    (physicsStep st b).y =
      if b.y + (b.velocityY + st.gravity) - b.radius ≤ 0 ∨
          b.y + (b.velocityY + st.gravity) + b.radius ≥ screenHeight then
        clampAxis (b.y + (b.velocityY + st.gravity)) b.radius screenHeight
      else b.y + (b.velocityY + st.gravity) := by
  unfold physicsStep clampAxis
  simp only []
  split_ifs <;> rfl

theorem physicsStep_velocityY (st : Settings) (b : Ball) :
    (physicsStep st b).velocityY =
      if b.y + (b.velocityY + st.gravity) - b.radius ≤ 0 ∨
          b.y + (b.velocityY + st.gravity) + b.radius ≥ screenHeight then
        (b.velocityY + st.gravity) * -st.bounceFactor
      else b.velocityY + st.gravity := by
  unfold physicsStep
  simp only []
  split_ifs <;> rfl

theorem updateGame_step (g : Game) (k : Keys) (b : Ball) (hb : g.ball = some b)
    (hk : k.escape = false) :
    updateGame g k = .running { g with ball := some (physicsStep g.settings b) } := by
  simp [updateGame, hb, hk]

theorem Update_playing_step (g : Game) (k : Keys) (b : Ball) (hs : g.state = .StatePlaying)
    (hb : g.ball = some b) (hk : k.escape = false) :
    Update g k = .running { g with ball := some (physicsStep g.settings b) } := by
  simp [Update, hs, updateGame, hb, hk]

theorem clampAxis_mem (p radius bound : ℚ) (hr : radius ≤ bound / 2) :
    radius ≤ clampAxis p radius bound ∧ clampAxis p radius bound ≤ bound - radius := by
  unfold clampAxis
  simp only []
  split_ifs <;> constructor <;> linarith

/-- What the two clamping `if`s make of the integrated position `p`, case by case. Only the
order of the numbers compared is used. -/
theorem clampAxis_cases (p radius bound : ℚ) :
    (p < radius → radius ≤ bound - radius → clampAxis p radius bound = radius) ∧
      (radius ≤ p → bound - radius < p → clampAxis p radius bound = bound - radius) ∧
      (radius ≤ p → p ≤ bound - radius → clampAxis p radius bound = p) ∧
      (bound - radius < radius → clampAxis p radius bound = bound - radius) ∧
      (radius ≤ bound - radius →
        radius ≤ clampAxis p radius bound ∧ clampAxis p radius bound ≤ bound - radius) ∧
      (radius ≤ bound - radius → clampAxis p radius bound ≠ p →
        nearerBoundary (clampAxis p radius bound) p radius bound) := by
  unfold clampAxis nearerBoundary
  simp only []
  refine ⟨fun h1 h2 => ?_, fun h1 h2 => ?_, fun h1 h2 => ?_, fun h1 => ?_, fun h1 => ?_,
    fun h1 h2 => ?_⟩
  · rw [if_pos h1, if_neg (not_lt.mpr h2)]
  · rw [if_neg (not_lt.mpr h1), if_pos h2]
  · rw [if_neg (not_lt.mpr h1), if_neg (not_lt.mpr h2)]
  · by_cases h2 : p < radius
    · rw [if_pos h2, if_pos h1]
    · rw [if_neg h2, if_pos (lt_of_lt_of_le h1 (not_lt.mp h2))]
  · by_cases h2 : p < radius
    · rw [if_pos h2, if_neg (not_lt.mpr h1)]
      exact ⟨le_refl _, h1⟩
    · rw [if_neg h2]
      by_cases h3 : p > bound - radius
      · rw [if_pos h3]
        exact ⟨h1, le_refl _⟩
      · rw [if_neg h3]
        exact ⟨not_lt.mp h2, not_lt.mp h3⟩
  · by_cases h3 : p < radius
    · rw [if_pos h3, if_neg (not_lt.mpr h1)]
      refine ⟨Or.inl rfl, le_refl _, ?_⟩
      rw [abs_of_nonneg (sub_nonneg.mpr (le_of_lt h3)),
        abs_of_nonneg (sub_nonneg.mpr (le_trans (le_of_lt h3) h1))]
      exact sub_le_sub_right h1 p
    · rw [if_neg h3] at h2 ⊢
      by_cases h4 : p > bound - radius
      · rw [if_pos h4]
        refine ⟨Or.inr rfl, ?_, le_refl _⟩
        rw [abs_of_nonpos (sub_nonpos.mpr (le_of_lt h4)),
          abs_of_nonpos (sub_nonpos.mpr (not_lt.mp h3))]
        exact neg_le_neg (sub_le_sub_right h1 p)
      · rw [if_neg h4] at h2
        exact absurd rfl h2

/-- Closed form of the straight drop while the ball is in free fall: after `k ≤ 36` steps
under gravity 0.5 the drop ball has vy = k / 2 and y = 120 + k (k + 1) / 4. -/
theorem drop_closed_form (k : Nat) (hk : k ≤ 36) :
    stepN NewGame.settings k dropBall =
      { dropBall with velocityY := (k : ℚ) / 2, y := 120 + (k : ℚ) * ((k : ℚ) + 1) / 4 } := by
  induction k with
  | zero => simp [stepN, dropBall]
  | succ k ih =>
    have hk1 : (k : ℚ) ≤ 35 := by exact_mod_cast Nat.le_of_succ_le_succ hk
    have hk0 : (0 : ℚ) ≤ k := Nat.cast_nonneg k
    have hq : (k : ℚ) * k ≤ 35 * 35 := mul_le_mul hk1 hk1 hk0 (by norm_num)
    rw [stepN, ih (Nat.le_of_succ_le hk)]
    apply Ball.ext
    · rw [physicsStep_x]
      norm_num [dropBall, screenWidth]
    · rw [physicsStep_y, if_neg]
      · simp only [NewGame, dropBall]
        push_cast
        ring
      · simp only [NewGame, dropBall, screenHeight]
        push_neg
        constructor <;> nlinarith
    · rw [physicsStep_velocityX]
      norm_num [dropBall, screenWidth]
    · rw [physicsStep_velocityY, if_neg]
      · simp only [NewGame]
        push_cast
        ring
      · simp only [NewGame, dropBall, screenHeight]
        push_neg
        constructor <;> nlinarith
    · rw [physicsStep_radius]
    · rw [physicsStep_color]

theorem Update_settings_decrease (g : Game) (hs : g.state = .StateSettings) :
    Update g Event.Decrease.keys =
      .running { g with settings := decreaseSetting g.settings g.settingsItem } := by
  simp [Update, hs, updateSettings, Event.keys, noKeys]

/-- In the settings screen `n` Decrease events return, having applied the Left `switch` `n`
times at the cursor. -/
theorem runTicks_decrease (n : Nat) (g : Game) (hs : g.state = .StateSettings) :
    runTicks g (repeatEvent .Decrease n) =
      .running
        { g with settings := (fun s => decreaseSetting s g.settingsItem)^[n] g.settings } := by
  induction n generalizing g with
  | zero => rfl
  | succ n ih =>
    have hstep : runTicks g (repeatEvent .Decrease (n + 1)) =
        runTicks { g with settings := decreaseSetting g.settings g.settingsItem }
          (repeatEvent .Decrease n) := by
      simp only [repeatEvent, List.replicate_succ, runTicks, Update_settings_decrease g hs]
    rw [hstep]
    exact ih { g with settings := decreaseSetting g.settings g.settingsItem } hs

theorem iterate_decrease_bounceFactor (n : Nat) (s : Settings) :
    (fun s => decreaseSetting s 1)^[n] s =
      { s with bounceFactor := s.bounceFactor - (n : ℚ) * 0.1 } := by
  induction n generalizing s with
  | zero => simp
  | succ n ih =>
    rw [Function.iterate_succ_apply, ih]
    simp only [decreaseSetting]
    norm_num
    ring

/-- A property kept by every returning `Update` holds along every run. -/
theorem runTicks_invariant (P : Game → Prop)
    (hstep : ∀ (g : Game) (k : Keys) (g1 : Game), P g → Update g k = .running g1 → P g1) :
    ∀ (ks : List Keys) (g g1 : Game), P g → runTicks g ks = .running g1 → P g1 := by
  intro ks
  induction ks with
  | nil =>
    intro g g1 hP h
    simp only [runTicks, Outcome.running.injEq] at h
    exact h ▸ hP
  | cons k ks ih =>
    intro g g1 hP h
    rw [runTicks] at h
    cases hu : Update g k with
    | running g2 =>
      rw [hu] at h
      exact ih g2 g1 (hstep g k g2 hP hu) h
    | exited => rw [hu] at h; cases h
    | nilDeref => rw [hu] at h; cases h

/-- What a returning `updateMainMenu` leaves: settings and settings cursor as they were, and
either a new ball in screen Playing, or the old ball in the settings screen or in the
screen it started from. -/
theorem updateMainMenu_running (g : Game) (k : Keys) (g1 : Game)
    (h : updateMainMenu g k = .running g1) :
    g1.settings = g.settings ∧ g1.settingsItem = g.settingsItem ∧
      ((g1.state = .StatePlaying ∧ g1.ball = some (NewBall g.settings)) ∨
        (g1.state = .StateSettings ∧ g1.ball = g.ball) ∨
        (g1.state = g.state ∧ g1.ball = g.ball)) := by
  unfold updateMainMenu at h
  simp only [] at h
  split_ifs at h <;> cases h <;> simp

/-- What `updateSettings` leaves: it always returns, with the ball and the main-menu cursor
as they were, in the settings screen or the main menu, and with the settings as they were
unless Right or Left was pressed. -/
theorem updateSettings_running (g : Game) (k : Keys) :
    ∃ g1 : Game, updateSettings g k = .running g1 ∧ g1.ball = g.ball ∧
      g1.menuItem = g.menuItem ∧ (g1.state = g.state ∨ g1.state = .StateMainMenu) ∧
      (g1.settings ≠ g.settings → k.right = true ∨ k.left = true) := by
  refine ⟨_, rfl, ?_⟩
  cases k.down <;> cases k.up <;> cases k.escape <;> cases k.right <;> cases k.left <;> simp

/-- What a returning `updateGame` leaves: settings and cursors as they were, and either the
main menu with the ball as it was, or the same screen with the ball stepped once. -/
theorem updateGame_running (g : Game) (k : Keys) (g1 : Game)
    (h : updateGame g k = .running g1) :
    g1.settings = g.settings ∧ g1.menuItem = g.menuItem ∧ g1.settingsItem = g.settingsItem ∧
      ((g1.state = .StateMainMenu ∧ g1.ball = g.ball) ∨
        (g1.state = g.state ∧ ∃ b : Ball, g.ball = some b ∧
          g1.ball = some (physicsStep g.settings b))) := by
  unfold updateGame at h
  split_ifs at h
  · cases h; simp
  · cases hb : g.ball with
    | none => rw [hb] at h; cases h
    | some b =>
      rw [hb] at h
      cases h
      simp

theorem Update_lifetimeInv (g : Game) (k : Keys) (g1 : Game) (hi : lifetimeInv g)
    (h : Update g k = .running g1) : lifetimeInv g1 := by
  intro hp
  unfold Update at h
  cases hs : g.state with
  | StateMainMenu =>
    rw [hs] at h
    obtain ⟨hset, -, hc⟩ := updateMainMenu_running g k g1 h
    rcases hc with ⟨-, hb⟩ | ⟨hst, -⟩ | ⟨hst, -⟩
    · exact ⟨0, by rw [hb, hset]; rfl⟩
    · rw [hst] at hp; cases hp
    · rw [hst, hs] at hp; cases hp
  | StateSettings =>
    rw [hs] at h
    obtain ⟨g2, h2, -, -, hst, -⟩ := updateSettings_running g k
    rw [h2] at h
    cases h
    rcases hst with hst | hst
    · rw [hst, hs] at hp; cases hp
    · rw [hst] at hp; cases hp
  | StatePlaying =>
    rw [hs] at h
    obtain ⟨hset, -, -, hc⟩ := updateGame_running g k g1 h
    rcases hc with ⟨hst, -⟩ | ⟨-, b, hb, hb1⟩
    · rw [hst] at hp; cases hp
    · obtain ⟨n, hn⟩ := hi hs
      rw [hb] at hn
      cases hn
      exact ⟨n + 1, by rw [hb1, hset]; rfl⟩

/-- Along every run from the initial session, a session in screen Playing holds the new ball
of its current settings stepped some number of times under its current settings. -/
theorem reachable_lifetimeInv (ks : List Keys) (g : Game)
    (h : runTicks NewGame ks = .running g) : lifetimeInv g :=
  runTicks_invariant lifetimeInv Update_lifetimeInv ks NewGame g (fun hp => by cases hp) h

/-- On a cursor inside a menu of `3` items the machine arithmetic of Down is `+ 1 mod 3`. -/
theorem menuDown_eq (m : Int) (h0 : 0 ≤ m) (h3 : m < 3) :
    goRem (wrapInt64 (m + 1)) 3 = (m + 1) % 3 := by
  have h : m = 0 ∨ m = 1 ∨ m = 2 := by omega
  rcases h with rfl | rfl | rfl <;> decide

theorem menuUp_eq (m : Int) (h0 : 0 ≤ m) (h3 : m < 3) :
    goRem (wrapInt64 (wrapInt64 (m - 1) + 3)) 3 = (m + 2) % 3 := by
  have h : m = 0 ∨ m = 1 ∨ m = 2 := by omega
  rcases h with rfl | rfl | rfl <;> decide

theorem settingsDown_eq (m : Int) (h0 : 0 ≤ m) (h5 : m < 5) :
    goRem (wrapInt64 (m + 1)) 5 = (m + 1) % 5 := by
  have h : m = 0 ∨ m = 1 ∨ m = 2 ∨ m = 3 ∨ m = 4 := by omega
  rcases h with rfl | rfl | rfl | rfl | rfl <;> decide

theorem settingsUp_eq (m : Int) (h0 : 0 ≤ m) (h5 : m < 5) :
    goRem (wrapInt64 (wrapInt64 (m - 1) + 5)) 5 = (m + 4) % 5 := by
  have h : m = 0 ∨ m = 1 ∨ m = 2 ∨ m = 3 ∨ m = 4 := by omega
  rcases h with rfl | rfl | rfl | rfl | rfl <;> decide

theorem updateMainMenu_menuItem (g : Game) (k : Keys) (g1 : Game)
    (h0 : 0 ≤ g.menuItem) (h3 : g.menuItem < 3) (h : updateMainMenu g k = .running g1) :
    0 ≤ g1.menuItem ∧ g1.menuItem < 3 := by
  have hd := menuDown_eq g.menuItem h0 h3
  have hu := menuUp_eq g.menuItem h0 h3
  have hdu := menuUp_eq ((g.menuItem + 1) % 3) (by omega) (by omega)
  unfold updateMainMenu at h
  simp only [] at h
  cases hkd : k.down <;> cases hku : k.up <;> simp only [hkd, hku] at h <;>
    split_ifs at h <;> cases h <;> (try simp only [hd, hu, hdu]) <;> omega

theorem updateSettings_settingsItem (g : Game) (k : Keys) (g1 : Game)
    (h0 : 0 ≤ g.settingsItem) (h5 : g.settingsItem < 5) (h : updateSettings g k = .running g1) :
    0 ≤ g1.settingsItem ∧ g1.settingsItem < 5 := by
  have hd := settingsDown_eq g.settingsItem h0 h5
  have hu := settingsUp_eq g.settingsItem h0 h5
  have hdu := settingsUp_eq ((g.settingsItem + 1) % 5) (by omega) (by omega)
  unfold updateSettings at h
  simp only [] at h
  cases hkd : k.down <;> cases hku : k.up <;> simp only [hkd, hku] at h <;>
    split_ifs at h <;> cases h <;> (try simp only [hd, hu, hdu]) <;> omega

theorem Update_cursorInv (g : Game) (k : Keys) (g1 : Game) (hi : cursorInv g)
    (h : Update g k = .running g1) : cursorInv g1 := by
  obtain ⟨h1, h2, h3, h4⟩ := hi
  unfold Update at h
  cases hs : g.state with
  | StateMainMenu =>
    rw [hs] at h
    obtain ⟨-, hset, -⟩ := updateMainMenu_running g k g1 h
    obtain ⟨ha, hb⟩ := updateMainMenu_menuItem g k g1 h1 h2 h
    exact ⟨ha, hb, by rw [hset]; exact h3, by rw [hset]; exact h4⟩
  | StateSettings =>
    rw [hs] at h
    obtain ⟨g2, h2s, -, hm, -, -⟩ := updateSettings_running g k
    obtain ⟨ha, hb⟩ := updateSettings_settingsItem g k g1 h3 h4 h
    rw [h2s] at h
    cases h
    exact ⟨by rw [hm]; exact h1, by rw [hm]; exact h2, ha, hb⟩
  | StatePlaying =>
    rw [hs] at h
    obtain ⟨-, hm, hset, -⟩ := updateGame_running g k g1 h
    exact ⟨by rw [hm]; exact h1, by rw [hm]; exact h2, by rw [hset]; exact h3,
      by rw [hset]; exact h4⟩

/-- An `Update` that ends the process was made in the main menu with Enter pressed. -/
theorem Update_exited (g : Game) (k : Keys) (h : Update g k = .exited) :
    g.state = .StateMainMenu ∧ k.enter = true := by
  unfold Update at h
  cases hs : g.state with
  | StateMainMenu =>
    rw [hs] at h
    refine ⟨rfl, ?_⟩
    unfold updateMainMenu at h
    simp only [] at h
    cases he : k.enter with
    | true => rfl
    | false => rw [he] at h; simp at h
  | StateSettings =>
    rw [hs] at h
    obtain ⟨g2, h2, -⟩ := updateSettings_running g k
    rw [h2] at h
    cases h
  | StatePlaying =>
    rw [hs] at h
    unfold updateGame at h
    split_ifs at h
    cases hb : g.ball with
    | none => rw [hb] at h; cases h
    | some b => rw [hb] at h; cases h

/-- A session that holds a ball whenever it is in play never dereferences a nil ball. -/
theorem Update_ne_nilDeref (g : Game) (k : Keys) (hi : lifetimeInv g) :
    Update g k ≠ .nilDeref := by
  intro h
  unfold Update at h
  cases hs : g.state with
  | StateMainMenu =>
    rw [hs] at h
    unfold updateMainMenu at h
    simp only [] at h
    split_ifs at h
  | StateSettings =>
    rw [hs] at h
    obtain ⟨g2, h2, -⟩ := updateSettings_running g k
    rw [h2] at h
    cases h
  | StatePlaying =>
    rw [hs] at h
    obtain ⟨n, hn⟩ := hi hs
    unfold updateGame at h
    rw [hn] at h
    split_ifs at h

theorem runTicks_ne_nilDeref (ks : List Keys) :
    ∀ g : Game, lifetimeInv g → runTicks g ks ≠ .nilDeref := by
  induction ks with
  | nil => intro g _ h; cases h
  | cons k ks ih =>
    intro g hi h
    rw [runTicks] at h
    cases hu : Update g k with
    | running g2 =>
      rw [hu] at h
      exact ih g2 (Update_lifetimeInv g k g2 hi hu) h
    | exited => rw [hu] at h; cases h
    | nilDeref => exact Update_ne_nilDeref g k hi hu

theorem stepN_radius (st : Settings) (n : Nat) (b : Ball) : (stepN st n b).radius = b.radius := by
  induction n with
  | zero => rfl
  | succ n ih => rw [stepN, physicsStep_radius, ih]

theorem stepN_color (st : Settings) (n : Nat) (b : Ball) : (stepN st n b).color = b.color := by
  induction n with
  | zero => rfl
  | succ n ih => rw [stepN, physicsStep_color, ih]

/-- One physics step leaves a ball of radius at most half the height inside the screen. -/
theorem physicsStep_contained (st : Settings) (b : Ball) (hh : b.radius ≤ 240) :
    0 ≤ (physicsStep st b).x - (physicsStep st b).radius ∧
      (physicsStep st b).x + (physicsStep st b).radius ≤ 640 ∧
      0 ≤ (physicsStep st b).y - (physicsStep st b).radius ∧
      (physicsStep st b).y + (physicsStep st b).radius ≤ 480 := by
  have hx := clampAxis_mem (b.x + b.velocityX) b.radius screenWidth
    (by unfold screenWidth; linarith)
  have hy := clampAxis_mem (b.y + (b.velocityY + st.gravity)) b.radius screenHeight
    (by unfold screenHeight; linarith)
  rw [physicsStep_x, physicsStep_y, physicsStep_radius]
  unfold screenWidth at hx ⊢
  unfold screenHeight at hy ⊢
  refine ⟨?_, ?_, ?_, ?_⟩ <;> split_ifs with h <;> first
    | linarith [hx.1, hx.2, hy.1, hy.2]
    | (push_neg at h; linarith [h.1, h.2])

/-- After `n` Decrease events in the settings screen the session is still there with the
same cursor, and one more Decrease is the Left `switch` applied to the settings they left. -/
theorem runTicks_decrease_succ (n : Nat) (g : Game) (hs : g.state = .StateSettings) :
    ∃ gn : Game, runTicks g (repeatEvent .Decrease n) = .running gn ∧
      gn.state = .StateSettings ∧ gn.settingsItem = g.settingsItem ∧
      gn.menuItem = g.menuItem ∧ gn.ball = g.ball ∧
      runTicks g (repeatEvent .Decrease (n + 1)) = Update gn Event.Decrease.keys := by
  refine ⟨{ g with settings := (fun s => decreaseSetting s g.settingsItem)^[n] g.settings },
    runTicks_decrease n g hs, hs, rfl, rfl, rfl, ?_⟩
  have hu := Update_settings_decrease
    { g with settings := (fun s => decreaseSetting s g.settingsItem)^[n] g.settings } hs
  rw [runTicks_decrease (n + 1) g hs, hu, Function.iterate_succ_apply']

set_option maxRecDepth 8000

set_option exponentiation.threshold 2000

/-! ## Binary64 facts -/

/-- The constants `0.1` and `0.7` of the binary64 model are the nearest `float64` values:
53-bit mantissas, within half a unit in the last place of the decimal numbers. -/
theorem F64.constants_nearest :
    F64.toRat F64.tenth = 7205759403792794 / 2 ^ 56 ∧
      |F64.toRat F64.tenth - 1 / 10| ≤ 1 / 2 ^ 57 ∧
      F64.toRat F64.sevenTenths = 6305039478318694 / 2 ^ 53 ∧
      |F64.toRat F64.sevenTenths - 7 / 10| ≤ 1 / 2 ^ 54 ∧
      F64.toRat F64.half = 1 / 2 := by
  simp only [F64.toRat, F64.tenth, F64.sevenTenths, F64.half, Int.reduceToNat, Int.reduceNeg]
  norm_num [abs_le]

theorem roundShift_zero (k : Nat) : roundShift 0 k = 0 := by
  unfold roundShift
  simp

theorem F64.round_man_nonneg (m e : Int) (h : 0 ≤ m) : 0 ≤ (F64.round m e).man := by
  unfold F64.round
  simp only []
  rw [if_neg (not_lt.mpr h)]
  exact Int.natCast_nonneg _

theorem F64.round_man_nonpos (m e : Int) (h : m ≤ 0) : (F64.round m e).man ≤ 0 := by
  unfold F64.round
  simp only []
  split_ifs with h1
  · exact neg_nonpos.mpr (Int.natCast_nonneg _)
  · have hm : m = 0 := le_antisymm h (not_lt.mp h1)
    rw [hm]
    simp [roundShift_zero]

/-- The collision response `v * -b` in binary64 never reverses `v` when `b` is negative. -/
theorem F64.mul_neg_sign (v b : F64) (hb : b.man < 0) :
    (0 ≤ v.man → 0 ≤ (F64.mul v (F64.neg b)).man) ∧
      (v.man ≤ 0 → (F64.mul v (F64.neg b)).man ≤ 0) := by
  have hnb : 0 ≤ (F64.neg b).man := by
    unfold F64.neg
    simp only []
    omega
  constructor
  · intro hv
    exact F64.round_man_nonneg _ _ (mul_nonneg hv hnb)
  · intro hv
    exact F64.round_man_nonpos _ _ (mul_nonpos_of_nonpos_of_nonneg hv hnb)

theorem physicsStep64_velocityX (st : Settings64) (b : Ball64) :
    (physicsStep64 st b).velocityX =
      if firesX64 b then F64.mul b.velocityX (F64.neg st.bounceFactor) else b.velocityX := by
  unfold physicsStep64 firesX64
  simp only []
  split_ifs <;> rfl

theorem physicsStep64_velocityY (st : Settings64) (b : Ball64) :
    (physicsStep64 st b).velocityY =
      if firesY64 st b then
        F64.mul (F64.add b.velocityY st.gravity) (F64.neg st.bounceFactor)
      else F64.add b.velocityY st.gravity := by
  unfold physicsStep64 firesY64
  simp only []
  split_ifs <;> rfl

/-! ## Physics -/

/-- C1: boundary containment. For a ball whose radius is below half the width (320) and half
the height (240), `updateGame` without a Back event returns with the stepped ball, and the
stepped ball's circle lies inside the screen, with tolerance 0. -/
theorem boundary_containment (g : Game) (k : Keys) (b : Ball) (hb : g.ball = some b)
    (hk : k.escape = false) (hw : b.radius < 320) (hh : b.radius < 240) :
    updateGame g k = .running { g with ball := some (physicsStep g.settings b) } ∧
      0 ≤ (physicsStep g.settings b).x - (physicsStep g.settings b).radius ∧
      (physicsStep g.settings b).x + (physicsStep g.settings b).radius ≤ 640 ∧
      0 ≤ (physicsStep g.settings b).y - (physicsStep g.settings b).radius ∧
      (physicsStep g.settings b).y + (physicsStep g.settings b).radius ≤ 480 := by
  refine ⟨updateGame_step g k b hb hk, ?_⟩
  have hx := clampAxis_mem (b.x + b.velocityX) b.radius screenWidth
    (by clear hh; unfold screenWidth; linarith)
  have hy := clampAxis_mem (b.y + (b.velocityY + g.settings.gravity)) b.radius screenHeight
    (by unfold screenHeight; linarith)
  rw [physicsStep_x, physicsStep_y, physicsStep_radius]
  unfold screenWidth at hx ⊢
  unfold screenHeight at hy ⊢
  refine ⟨?_, ?_, ?_, ?_⟩
  · split_ifs with h
    · linarith [hx.1]
    · push_neg at h; linarith [h.1]
  · split_ifs with h
    · linarith [hx.2]
    · push_neg at h; linarith [h.2]
  · split_ifs with h
    · linarith [hy.1]
    · push_neg at h; linarith [h.1]
  · split_ifs with h
    · linarith [hy.2]
    · push_neg at h; linarith [h.2]

/-- Witness of C1: the ball moving right, stepped under the default settings while Playing. -/
theorem boundary_containment_witness :
    updateGame { NewGame with state := .StatePlaying, ball := some rightBall } noKeys =
        .running { NewGame with state := .StatePlaying,
                                ball := some (physicsStep NewGame.settings rightBall) } ∧
      0 ≤ (physicsStep NewGame.settings rightBall).x -
          (physicsStep NewGame.settings rightBall).radius ∧
      (physicsStep NewGame.settings rightBall).x +
          (physicsStep NewGame.settings rightBall).radius ≤ 640 ∧
      0 ≤ (physicsStep NewGame.settings rightBall).y -
          (physicsStep NewGame.settings rightBall).radius ∧
      (physicsStep NewGame.settings rightBall).y +
          (physicsStep NewGame.settings rightBall).radius ≤ 480 :=
  boundary_containment { NewGame with state := .StatePlaying, ball := some rightBall } noKeys
    rightBall rfl rfl (by norm_num [rightBall]) (by norm_num [rightBall])

/-- C2, as stated, fails: the ball of radius 400 at rest at x = 500 meets the horizontal wall
test, and the step puts it at x = 240 = width - radius, although the other boundary value,
radius = 400, is nearer to the integrated position 500. -/
theorem wall_rule_counterexample :
    wallTest (wideBall.x + wideBall.velocityX) wideBall.radius screenWidth ∧
      (physicsStep NewGame.settings wideBall).x = 240 ∧
      ¬ nearerBoundary (physicsStep NewGame.settings wideBall).x
          (wideBall.x + wideBall.velocityX) wideBall.radius screenWidth := by
  have hx : (physicsStep NewGame.settings wideBall).x = 240 := by
    rw [physicsStep_x]
    norm_num [wideBall, clampAxis, screenWidth]
  refine ⟨?_, hx, ?_⟩
  · norm_num [wallTest, wideBall, screenWidth]
  · rw [hx]
    norm_num [nearerBoundary, wideBall, screenWidth, abs_lt]

/-- C2, amended: for every radius and every bounceFactor, the horizontal wall test fires
exactly on `x1 - radius ≤ 0 ∨ x1 + radius ≥ width`, with `x1 = x + vx`; when it fires the
new vx is `vx * (-bounceFactor)` and the new x is `x1` put through the two clamps in
sequence. With `radius ≤ width - radius` that is `radius` for `x1 < radius`,
`width - radius` for `x1 > width - radius` and `x1` itself in between, so it lies in
`[radius, width - radius]` and, whenever the clamps moved it, it is the boundary value
nearer to `x1`; with `radius > width - radius` it is `width - radius` whatever `x1` is.
When the test does not fire, `x = x1` and vx is unchanged. The same on the y axis with
`height`, `y1 = y + (vy + gravity)` and `vy + gravity`. -/
theorem wall_rule (st : Settings) (b : Ball) :
    (wallTest (b.x + b.velocityX) b.radius screenWidth →
        (physicsStep st b).velocityX = b.velocityX * -st.bounceFactor ∧
        (b.x + b.velocityX < b.radius → b.radius ≤ screenWidth - b.radius →
          (physicsStep st b).x = b.radius) ∧
        (b.radius ≤ b.x + b.velocityX → screenWidth - b.radius < b.x + b.velocityX →
          (physicsStep st b).x = screenWidth - b.radius) ∧
        (b.radius ≤ b.x + b.velocityX → b.x + b.velocityX ≤ screenWidth - b.radius →
          (physicsStep st b).x = b.x + b.velocityX) ∧
        (screenWidth - b.radius < b.radius → (physicsStep st b).x = screenWidth - b.radius) ∧
        (b.radius ≤ screenWidth - b.radius →
          b.radius ≤ (physicsStep st b).x ∧ (physicsStep st b).x ≤ screenWidth - b.radius) ∧
        (b.radius ≤ screenWidth - b.radius → (physicsStep st b).x ≠ b.x + b.velocityX →
          nearerBoundary (physicsStep st b).x (b.x + b.velocityX) b.radius screenWidth)) ∧
      (¬ wallTest (b.x + b.velocityX) b.radius screenWidth →
        (physicsStep st b).x = b.x + b.velocityX ∧ (physicsStep st b).velocityX = b.velocityX) ∧
      (wallTest (b.y + (b.velocityY + st.gravity)) b.radius screenHeight →
        (physicsStep st b).velocityY = (b.velocityY + st.gravity) * -st.bounceFactor ∧
        (b.y + (b.velocityY + st.gravity) < b.radius → b.radius ≤ screenHeight - b.radius →
          (physicsStep st b).y = b.radius) ∧
        (b.radius ≤ b.y + (b.velocityY + st.gravity) →
          screenHeight - b.radius < b.y + (b.velocityY + st.gravity) →
          (physicsStep st b).y = screenHeight - b.radius) ∧
        (b.radius ≤ b.y + (b.velocityY + st.gravity) →
          b.y + (b.velocityY + st.gravity) ≤ screenHeight - b.radius →
          (physicsStep st b).y = b.y + (b.velocityY + st.gravity)) ∧
        (screenHeight - b.radius < b.radius → (physicsStep st b).y = screenHeight - b.radius) ∧
        (b.radius ≤ screenHeight - b.radius →
          b.radius ≤ (physicsStep st b).y ∧ (physicsStep st b).y ≤ screenHeight - b.radius) ∧
        (b.radius ≤ screenHeight - b.radius →
          (physicsStep st b).y ≠ b.y + (b.velocityY + st.gravity) →
          nearerBoundary (physicsStep st b).y (b.y + (b.velocityY + st.gravity)) b.radius
            screenHeight)) ∧
      (¬ wallTest (b.y + (b.velocityY + st.gravity)) b.radius screenHeight →
        (physicsStep st b).y = b.y + (b.velocityY + st.gravity) ∧
        (physicsStep st b).velocityY = b.velocityY + st.gravity) := by
  rw [physicsStep_x, physicsStep_y, physicsStep_velocityX, physicsStep_velocityY]
  refine ⟨fun h => ?_, fun h => ?_, fun h => ?_, fun h => ?_⟩
  · have h1 : b.x + b.velocityX - b.radius ≤ 0 ∨ b.x + b.velocityX + b.radius ≥ screenWidth := h
    rw [if_pos h1, if_pos h1]
    exact ⟨rfl, clampAxis_cases _ _ _⟩
  · have h1 : ¬ (b.x + b.velocityX - b.radius ≤ 0 ∨ b.x + b.velocityX + b.radius ≥ screenWidth) :=
      h
    rw [if_neg h1, if_neg h1]
    exact ⟨rfl, rfl⟩
  · have h1 : b.y + (b.velocityY + st.gravity) - b.radius ≤ 0 ∨
        b.y + (b.velocityY + st.gravity) + b.radius ≥ screenHeight := h
    rw [if_pos h1, if_pos h1]
    exact ⟨rfl, clampAxis_cases _ _ _⟩
  · have h1 : ¬ (b.y + (b.velocityY + st.gravity) - b.radius ≤ 0 ∨
        b.y + (b.velocityY + st.gravity) + b.radius ≥ screenHeight) := h
    rw [if_neg h1, if_neg h1]
    exact ⟨rfl, rfl⟩

/-- Witness of C2 amended: the ball moving right at 15 from x = 610 meets the right wall; its
vx is multiplied by -0.7 and it is put at `width - radius`. -/
theorem wall_rule_witness :
    (physicsStep NewGame.settings rightBall).velocityX =
        rightBall.velocityX * -NewGame.settings.bounceFactor ∧
      (physicsStep NewGame.settings rightBall).x = screenWidth - rightBall.radius := by
  have h := (wall_rule NewGame.settings rightBall).1
    (by norm_num [wallTest, rightBall, screenWidth])
  exact ⟨h.1, h.2.2.1 (by norm_num [rightBall]) (by norm_num [rightBall, screenWidth])⟩

/-- C3: integration order. When neither wall test fires, one step gives exactly
`vy + gravity`, `vx`, `x + vx` and `y + (vy + gravity)`, radius and colour untouched: the
position uses the velocity that already includes gravity. From (320, 120, 0, 0) with
gravity 0.5 and radius 20 one step gives vy = 0.5 and y = 120.5, whatever the other
settings. -/
theorem integration_order :
    (∀ (st : Settings) (b : Ball), ¬ firesX b → ¬ firesY st b →
        physicsStep st b =
          { b with
            velocityY := b.velocityY + st.gravity
            x := b.x + b.velocityX
            y := b.y + (b.velocityY + st.gravity) }) ∧
      (∀ st : Settings, st.gravity = 0.5 →
        (physicsStep st dropBall).velocityY = 0.5 ∧ (physicsStep st dropBall).y = 120.5 ∧
        (physicsStep st dropBall).velocityX = 0 ∧ (physicsStep st dropBall).x = 320) := by
  constructor
  · intro st b hx hy
    have hx1 : ¬ (b.x + b.velocityX - b.radius ≤ 0 ∨ b.x + b.velocityX + b.radius ≥ screenWidth) :=
      hx
    have hy1 : ¬ (b.y + (b.velocityY + st.gravity) - b.radius ≤ 0 ∨
        b.y + (b.velocityY + st.gravity) + b.radius ≥ screenHeight) := hy
    apply Ball.ext
    · rw [physicsStep_x, if_neg hx1]
    · rw [physicsStep_y, if_neg hy1]
    · rw [physicsStep_velocityX, if_neg hx1]
    · rw [physicsStep_velocityY, if_neg hy1]
    · rw [physicsStep_radius]
    · rw [physicsStep_color]
  · intro st hg
    rw [physicsStep_x, physicsStep_y, physicsStep_velocityX, physicsStep_velocityY, hg]
    norm_num [dropBall, screenWidth, screenHeight]

/-- Witness of C3: the drop ball under the default settings meets no wall in its first
step, which is the plain integration. -/
theorem integration_order_witness :
    physicsStep NewGame.settings dropBall =
      { dropBall with
        velocityY := dropBall.velocityY + NewGame.settings.gravity
        x := dropBall.x + dropBall.velocityX
        y := dropBall.y + (dropBall.velocityY + NewGame.settings.gravity) } :=
  integration_order.1 NewGame.settings dropBall
    (by norm_num [firesX, wallTest, dropBall, screenWidth])
    (by norm_num [firesY, wallTest, dropBall, NewGame, screenHeight])

/-- C4: straight drop. From the ball at (320, 120) at rest, radius 20, gravity 0.5 and
bounceFactor 0.7, the step count n = 37 is such that after every k < n steps the ball has
vy = 0.5 k, y = 120 + k (k + 1) / 4 and x = 320, no wall test fires in steps 1 .. n - 1,
step n is the first whose integrated position has y + 20 ≥ 480, and after step n the ball
has vy < 0 and y = 460. -/
theorem straight_drop :
    ∃ n : Nat, 1 ≤ n ∧ n = 37 ∧
      (∀ k : Nat, k < n →
        (stepN NewGame.settings k dropBall).velocityY = 0.5 * (k : ℚ) ∧
        (stepN NewGame.settings k dropBall).y = 120 + (k : ℚ) * ((k : ℚ) + 1) / 4 ∧
        (stepN NewGame.settings k dropBall).x = 320 ∧
        (stepN NewGame.settings k dropBall).velocityX = 0 ∧
        (stepN NewGame.settings k dropBall).radius = 20) ∧
      (∀ k : Nat, k + 1 < n →
        ¬ firesX (stepN NewGame.settings k dropBall) ∧
        ¬ firesY NewGame.settings (stepN NewGame.settings k dropBall) ∧
        (stepN NewGame.settings k dropBall).y +
            ((stepN NewGame.settings k dropBall).velocityY + NewGame.settings.gravity) + 20
          < 480) ∧
      ¬ firesX (stepN NewGame.settings (n - 1) dropBall) ∧
      firesY NewGame.settings (stepN NewGame.settings (n - 1) dropBall) ∧
      (stepN NewGame.settings (n - 1) dropBall).y +
          ((stepN NewGame.settings (n - 1) dropBall).velocityY + NewGame.settings.gravity) + 20
        ≥ 480 ∧
      (stepN NewGame.settings n dropBall).velocityY < 0 ∧
      (stepN NewGame.settings n dropBall).y = 460 := by
  refine ⟨37, by norm_num, rfl, ?_, ?_, ?_⟩
  · intro k hk
    rw [drop_closed_form k (by omega)]
    refine ⟨?_, rfl, rfl, rfl, rfl⟩
    show (k : ℚ) / 2 = 0.5 * (k : ℚ)
    norm_num
    ring
  · intro k hk
    have hk1 : (k : ℚ) ≤ 35 := by
      have : k ≤ 35 := by omega
      exact_mod_cast this
    have hk0 : (0 : ℚ) ≤ k := Nat.cast_nonneg k
    have hq : (k : ℚ) * k ≤ 35 * 35 := mul_le_mul hk1 hk1 hk0 (by norm_num)
    rw [drop_closed_form k (by omega)]
    simp only [firesX, firesY, wallTest, NewGame, dropBall, screenWidth, screenHeight]
    refine ⟨?_, ?_, ?_⟩
    · norm_num
    · push_neg
      constructor <;> nlinarith
    · nlinarith
  · have h36 := drop_closed_form 36 (le_refl _)
    have h37 : stepN NewGame.settings 37 dropBall
        = physicsStep NewGame.settings (stepN NewGame.settings 36 dropBall) := rfl
    simp only [Nat.add_one_sub_one, Nat.reduceSub]
    rw [h37, h36, physicsStep_velocityY, physicsStep_y]
    simp only [firesX, firesY, wallTest, NewGame, dropBall, screenWidth, screenHeight,
      clampAxis]
    norm_num

/-- C5, as stated, fails: under bounceFactor 0.7, in [0, 1), the ball at rest against the
left wall meets the horizontal wall test, and its horizontal velocity is 0 before and 0
after the collision response: not strictly smaller in absolute value. -/
theorem energy_counterexample :
    0 ≤ NewGame.settings.bounceFactor ∧ NewGame.settings.bounceFactor < 1 ∧
      firesX restBall ∧
      ¬ (|(physicsStep NewGame.settings restBall).velocityX| < |restBall.velocityX|) := by
  rw [physicsStep_velocityX]
  norm_num [NewGame, firesX, wallTest, restBall, screenWidth]

/-- C5, amended: for every bounceFactor in [0, 1) and every ball state, whenever a wall test
fires on an axis, the velocity of that axis after the step is the velocity before the
collision response (vx, resp. vy + gravity) times `-bounceFactor`, and its absolute value
is not greater than the absolute value before. It need not be smaller: a velocity of zero
stays zero. -/
theorem energy_non_increase (st : Settings) (b : Ball) (h0 : 0 ≤ st.bounceFactor)
    (h1 : st.bounceFactor < 1) :
    (firesX b →
        (physicsStep st b).velocityX = b.velocityX * -st.bounceFactor ∧
        |(physicsStep st b).velocityX| ≤ |b.velocityX| ∧
        (b.velocityX = 0 → (physicsStep st b).velocityX = 0)) ∧
      (firesY st b →
        (physicsStep st b).velocityY = (b.velocityY + st.gravity) * -st.bounceFactor ∧
        |(physicsStep st b).velocityY| ≤ |b.velocityY + st.gravity| ∧
        (b.velocityY + st.gravity = 0 → (physicsStep st b).velocityY = 0)) := by
  have key : ∀ v : ℚ, |v * -st.bounceFactor| ≤ |v| ∧ (v = 0 → v * -st.bounceFactor = 0) := by
    intro v
    have hv : 0 ≤ |v| := abs_nonneg v
    refine ⟨?_, fun hz => by rw [hz, zero_mul]⟩
    rw [abs_mul, abs_neg, abs_of_nonneg h0]
    nlinarith
  constructor
  · intro h
    have hc : b.x + b.velocityX - b.radius ≤ 0 ∨ b.x + b.velocityX + b.radius ≥ screenWidth := h
    rw [physicsStep_velocityX, if_pos hc]
    exact ⟨rfl, key _⟩
  · intro h
    have hc : b.y + (b.velocityY + st.gravity) - b.radius ≤ 0 ∨
        b.y + (b.velocityY + st.gravity) + b.radius ≥ screenHeight := h
    rw [physicsStep_velocityY, if_pos hc]
    exact ⟨rfl, key _⟩

/-- Witness of C5 amended: the ball moving right at 15 meets the right wall under
bounceFactor 0.7 and leaves the step no faster. -/
theorem energy_non_increase_witness :
    |(physicsStep NewGame.settings rightBall).velocityX| ≤ |rightBall.velocityX| :=
  ((energy_non_increase NewGame.settings rightBall (by norm_num [NewGame])
      (by norm_num [NewGame])).1
    (by norm_num [firesX, wallTest, rightBall, screenWidth])).2.1

/-! ## Main menu -/

/-- C6: menu-to-play transition. For every settings value, from the main menu with the cursor
on item 0 a single Select event returns in screen Playing with the ball `NewBall settings`,
that is x = width / 2 = 320, y = height / 4 = 120, vx = ballSpeed, vy = 0, radius = ballSize
and colour = ballColor; the settings and both cursors are unchanged. -/
theorem menu_to_play (g : Game) (hs : g.state = .StateMainMenu) (hm : g.menuItem = 0) :
    Update g Event.Select.keys =
        .running { g with state := .StatePlaying, ball := some (NewBall g.settings) } ∧
      (NewBall g.settings).x = screenWidth / 2 ∧ (NewBall g.settings).x = 320 ∧
      (NewBall g.settings).y = screenHeight / 4 ∧ (NewBall g.settings).y = 120 ∧
      (NewBall g.settings).velocityX = g.settings.ballSpeed ∧
      (NewBall g.settings).velocityY = 0 ∧
      (NewBall g.settings).radius = g.settings.ballSize ∧
      (NewBall g.settings).color = g.settings.ballColor := by
  refine ⟨?_, rfl, ?_, rfl, ?_, rfl, rfl, rfl, rfl⟩
  · simp [Update, hs, updateMainMenu, Event.keys, noKeys, hm]
  · norm_num [NewBall, screenWidth]
  · norm_num [NewBall, screenHeight]

/-- Witness of C6: Select on the initial session. -/
theorem menu_to_play_witness :
    Update NewGame Event.Select.keys =
      .running { NewGame with state := .StatePlaying, ball := some (NewBall NewGame.settings) } :=
  (menu_to_play NewGame rfl rfl).1

/-- C7: main-menu Select dispatch. In the main menu, Select on item 1 changes the screen to
Settings and nothing else, Select on item 2 ends the process, and a tick without Select
(any combination of the other keys, Up and Down among them) returns in the main menu. -/
theorem main_menu_select (g : Game) (hs : g.state = .StateMainMenu) :
    (g.menuItem = 1 → Update g Event.Select.keys = .running { g with state := .StateSettings }) ∧
      (g.menuItem = 2 → Update g Event.Select.keys = .exited) ∧
      (∀ k : Keys, k.enter = false →
        ∃ g1 : Game, Update g k = .running g1 ∧ g1.state = .StateMainMenu ∧
          g1.settings = g.settings ∧ g1.ball = g.ball ∧ g1.settingsItem = g.settingsItem) := by
  refine ⟨fun hm => ?_, fun hm => ?_, fun k hk => ?_⟩
  · simp [Update, hs, updateMainMenu, Event.keys, noKeys, hm]
  · simp [Update, hs, updateMainMenu, Event.keys, noKeys, hm]
  · simp only [Update, hs, updateMainMenu, hk]
    cases k.down <;> cases k.up <;> simp [hs]

/-- Witness of C7: with the cursor on Quit, Select ends the process; with the cursor on
Settings, Select opens the settings screen. -/
theorem main_menu_select_witness :
    Update { NewGame with menuItem := 2 } Event.Select.keys = .exited ∧
      Update { NewGame with menuItem := 1 } Event.Select.keys =
        .running { NewGame with menuItem := 1, state := .StateSettings } :=
  ⟨(main_menu_select { NewGame with menuItem := 2 } rfl).2.1 rfl,
    (main_menu_select { NewGame with menuItem := 1 } rfl).1 rfl⟩

/-- C8: main-menu wraparound. For every cursor value in {0, 1, 2}, Down then Up and Up then
Down each return to the same state; Down alone maps 0 to 1, 1 to 2 and 2 to 0 (and Up maps
0 to 2, 1 to 0, 2 to 1), changing nothing else; three Down events are the identity. -/
theorem main_menu_wraparound (g : Game) (hs : g.state = .StateMainMenu)
    (hm : g.menuItem = 0 ∨ g.menuItem = 1 ∨ g.menuItem = 2) :
    runTicks g [Event.Down.keys, Event.Up.keys] = .running g ∧
      runTicks g [Event.Up.keys, Event.Down.keys] = .running g ∧
      Update g Event.Down.keys = .running { g with menuItem := (g.menuItem + 1) % 3 } ∧
      Update g Event.Up.keys = .running { g with menuItem := (g.menuItem + 2) % 3 } ∧
      runTicks g [Event.Down.keys, Event.Down.keys, Event.Down.keys] = .running g := by
  obtain ⟨state, ball, settings, menuItem, settingsItem⟩ := g
  simp only at hs hm
  subst hs
  rcases hm with h | h | h <;> subst h <;>
    simp [runTicks, Update, updateMainMenu, Event.keys, noKeys] <;> decide

/-- Witness of C8: the initial session, cursor on item 0. -/
theorem main_menu_wraparound_witness :
    runTicks NewGame [Event.Down.keys, Event.Up.keys] = .running NewGame ∧
      runTicks NewGame [Event.Up.keys, Event.Down.keys] = .running NewGame ∧
      Update NewGame Event.Down.keys =
        .running { NewGame with menuItem := (NewGame.menuItem + 1) % 3 } ∧
      Update NewGame Event.Up.keys =
        .running { NewGame with menuItem := (NewGame.menuItem + 2) % 3 } ∧
      runTicks NewGame [Event.Down.keys, Event.Down.keys, Event.Down.keys] = .running NewGame :=
  main_menu_wraparound NewGame rfl (Or.inl rfl)

/-! ## Settings screen -/

/-- C9: settings-menu wraparound. For every cursor value in {0, .., 4}, in the settings screen
Down then Up and Up then Down each return to the same state; Down maps i to (i + 1) mod 5
and Up maps i to (i - 1) mod 5 (0 to 4), changing nothing else, no settings field in
particular; five Down events are the identity. -/
theorem settings_wraparound (g : Game) (hs : g.state = .StateSettings)
    (hm : 0 ≤ g.settingsItem ∧ g.settingsItem < 5) :
    runTicks g [Event.Down.keys, Event.Up.keys] = .running g ∧
      runTicks g [Event.Up.keys, Event.Down.keys] = .running g ∧
      Update g Event.Down.keys = .running { g with settingsItem := (g.settingsItem + 1) % 5 } ∧
      Update g Event.Up.keys = .running { g with settingsItem := (g.settingsItem - 1) % 5 } ∧
      runTicks g [Event.Down.keys, Event.Down.keys, Event.Down.keys, Event.Down.keys,
        Event.Down.keys] = .running g := by
  obtain ⟨state, ball, settings, menuItem, settingsItem⟩ := g
  simp only at hs hm
  subst hs
  have h : settingsItem = 0 ∨ settingsItem = 1 ∨ settingsItem = 2 ∨ settingsItem = 3 ∨
      settingsItem = 4 := by omega
  rcases h with h | h | h | h | h <;> subst h <;>
    simp [runTicks, Update, updateSettings, Event.keys, noKeys] <;> decide

/-- Witness of C9: the settings screen with the cursor on item 0, where Up wraps to 4. -/
theorem settings_wraparound_witness :
    Update { NewGame with state := .StateSettings } Event.Up.keys =
      .running { NewGame with state := .StateSettings, settingsItem := 4 } :=
  (settings_wraparound { NewGame with state := .StateSettings } rfl
    ⟨by decide, by decide⟩).2.2.2.1

/-- C11, as stated, fails on `float64`: after eight Decrease events the default bounceFactor
is the negative double -3602879701896396 / 2 ^ 55, printed -0.09999999999999998; under it
the ball touching the right wall with the smallest positive vx, 5e-324, meets the
horizontal wall test, and its new vx, `vx * -bounceFactor` rounded, is zero: the velocity
did not keep its sign. -/
theorem unclamped_settings_counterexample :
    negativeBounce64.bounceFactor = { man := -3602879701896396, exp := -55 } ∧
      F64.lt negativeBounce64.bounceFactor (F64.ofInt 0) ∧
      firesX64 tinyBall64 ∧
      F64.lt (F64.ofInt 0) tinyBall64.velocityX ∧
      (physicsStep64 negativeBounce64 tinyBall64).velocityX = { man := 0, exp := -1074 } ∧
      ¬ F64.lt (F64.ofInt 0) (physicsStep64 negativeBounce64 tinyBall64).velocityX := by
  decide

/-- C11, amended: from the initial session, Down, Select, Down reach the settings screen with
the cursor on bounceFactor; every Decrease there is accepted, each subtracting 0.1 from the
bounceFactor left by the ones before, and after eight of them the bounceFactor is negative
(-0.1 in exact arithmetic, -0.09999999999999998 in binary64). Under a negative bounceFactor
a step whose wall test fires sets the velocity of that axis to `v * (-b)` verbatim, which
never reverses it: a velocity that was not negative is not negative afterwards, one that
was not positive is not positive afterwards; it can become zero. This holds in the exact
model and in binary64. -/
theorem unclamped_settings :
    runTicks NewGame [Event.Down.keys, Event.Select.keys, Event.Down.keys] =
        .running bounceScreen ∧
      (∀ n : Nat, ∃ gn : Game,
        runTicks bounceScreen (repeatEvent .Decrease n) = .running gn ∧
        gn.state = .StateSettings ∧ gn.settingsItem = 1 ∧
        runTicks bounceScreen (repeatEvent .Decrease (n + 1)) =
          .running { gn with
            settings := { gn.settings with bounceFactor := gn.settings.bounceFactor - 0.1 } }) ∧
      (∃ g8 : Game, runTicks bounceScreen (repeatEvent .Decrease 8) = .running g8 ∧
        g8.settings.bounceFactor < 0) ∧
      F64.lt negativeBounce64.bounceFactor (F64.ofInt 0) ∧
      (∀ (st : Settings) (b : Ball), st.bounceFactor < 0 →
        (firesX b →
          (physicsStep st b).velocityX = b.velocityX * -st.bounceFactor ∧
          (0 ≤ b.velocityX → 0 ≤ (physicsStep st b).velocityX) ∧
          (b.velocityX ≤ 0 → (physicsStep st b).velocityX ≤ 0)) ∧
        (firesY st b →
          (physicsStep st b).velocityY = (b.velocityY + st.gravity) * -st.bounceFactor ∧
          (0 ≤ b.velocityY + st.gravity → 0 ≤ (physicsStep st b).velocityY) ∧
          (b.velocityY + st.gravity ≤ 0 → (physicsStep st b).velocityY ≤ 0))) ∧
      (∀ (st : Settings64) (b : Ball64), st.bounceFactor.man < 0 →
        (firesX64 b →
          (physicsStep64 st b).velocityX = F64.mul b.velocityX (F64.neg st.bounceFactor) ∧
          (0 ≤ b.velocityX.man → 0 ≤ (physicsStep64 st b).velocityX.man) ∧
          (b.velocityX.man ≤ 0 → (physicsStep64 st b).velocityX.man ≤ 0)) ∧
        (firesY64 st b →
          (physicsStep64 st b).velocityY =
            F64.mul (F64.add b.velocityY st.gravity) (F64.neg st.bounceFactor) ∧
          (0 ≤ (F64.add b.velocityY st.gravity).man → 0 ≤ (physicsStep64 st b).velocityY.man) ∧
          ((F64.add b.velocityY st.gravity).man ≤ 0 →
            (physicsStep64 st b).velocityY.man ≤ 0))) := by
  have key : ∀ (bf v : ℚ), bf < 0 → (0 ≤ v → 0 ≤ v * -bf) ∧ (v ≤ 0 → v * -bf ≤ 0) := by
    intro bf v hbf
    exact ⟨fun hv => mul_nonneg hv (by linarith),
      fun hv => mul_nonpos_of_nonpos_of_nonneg hv (by linarith)⟩
  refine ⟨rfl, fun n => ?_, ?_, by decide, ?_, ?_⟩
  · obtain ⟨gn, h1, h2, h3, -, -, h4⟩ := runTicks_decrease_succ n bounceScreen rfl
    refine ⟨gn, h1, h2, h3, ?_⟩
    rw [h4, Update_settings_decrease gn h2, h3]
    rfl
  · refine ⟨_, runTicks_decrease 8 bounceScreen rfl, ?_⟩
    have e : bounceScreen.settingsItem = 1 := rfl
    simp only [e, iterate_decrease_bounceFactor]
    norm_num [bounceScreen, NewGame]
  · intro st b hbf
    constructor
    · intro h
      have hc : b.x + b.velocityX - b.radius ≤ 0 ∨ b.x + b.velocityX + b.radius ≥ screenWidth := h
      rw [physicsStep_velocityX, if_pos hc]
      exact ⟨rfl, key _ _ hbf⟩
    · intro h
      have hc : b.y + (b.velocityY + st.gravity) - b.radius ≤ 0 ∨
          b.y + (b.velocityY + st.gravity) + b.radius ≥ screenHeight := h
      rw [physicsStep_velocityY, if_pos hc]
      exact ⟨rfl, key _ _ hbf⟩
  · intro st b hbf
    constructor
    · intro h
      rw [physicsStep64_velocityX, if_pos h]
      exact ⟨rfl, F64.mul_neg_sign _ _ hbf⟩
    · intro h
      rw [physicsStep64_velocityY, if_pos h]
      exact ⟨rfl, F64.mul_neg_sign _ _ hbf⟩

/-- Witness of C11 amended: in binary64, under the bounceFactor left by eight Decrease events,
the ball moving right at 15 meets the right wall and leaves the step not moving left. -/
theorem unclamped_settings_witness :
    0 ≤ (physicsStep64 negativeBounce64 rightBall64).velocityX.man :=
  ((unclamped_settings.2.2.2.2.2 negativeBounce64 rightBall64 (by decide)).1
    (by decide)).2.1 (by decide)

/-- C12, the code at the failing input: in the settings screen with the cursor on "Back to
Main Menu", a Select event returns with the session unchanged, still in the settings
screen, whereas a Back event there goes to the main menu. `updateSettings` never asks
about the Enter key, so this is so for every cursor position. -/
theorem settings_select_ignored :
    Update backItemScreen Event.Select.keys = .running backItemScreen ∧
      Update backItemScreen Event.Back.keys =
        .running { backItemScreen with state := .StateMainMenu } ∧
      (∀ g : Game, g.state = .StateSettings → Update g Event.Select.keys = .running g) := by
  refine ⟨rfl, rfl, fun g hs => ?_⟩
  simp [Update, hs, updateSettings, Event.keys, noKeys]

/-- C13: settings Back is unconditional and non-destructive. In the settings screen, for
every cursor position and settings value, a Back event sets the screen to the main menu and
changes nothing else; a tick without the Escape key, in particular each of Up, Down,
Increase and Decrease, returns in the settings screen. -/
theorem settings_back (g : Game) (hs : g.state = .StateSettings) :
    Update g Event.Back.keys = .running { g with state := .StateMainMenu } ∧
      (∀ k : Keys, k.escape = false →
        ∃ g1 : Game, Update g k = .running g1 ∧ g1.state = .StateSettings) ∧
      (∀ e : Event, e = .Up ∨ e = .Down ∨ e = .Increase ∨ e = .Decrease →
        ∃ g1 : Game, Update g e.keys = .running g1 ∧ g1.state = .StateSettings) := by
  have hk : ∀ k : Keys, k.escape = false →
      ∃ g1 : Game, Update g k = .running g1 ∧ g1.state = .StateSettings := by
    intro k hk
    simp only [Update, hs, updateSettings, hk]
    cases k.down <;> cases k.up <;> cases k.right <;> cases k.left <;> simp [hs]
  refine ⟨?_, hk, fun e he => ?_⟩
  · simp [Update, hs, updateSettings, Event.keys, noKeys]
  · rcases he with h | h | h | h <;> subst h <;> exact hk _ rfl

/-- Witness of C13: Back from the settings screen with the cursor on bounceFactor. -/
theorem settings_back_witness :
    Update bounceScreen Event.Back.keys = .running { bounceScreen with state := .StateMainMenu } :=
  (settings_back bounceScreen rfl).1

/-! ## Playing -/

/-- C14: playing Back, no pause and no resume. In screen Playing with a ball in flight, a
tick with the Escape key sets the screen to the main menu and steps nothing (the ball is
left as it was), a tick without it applies one physics step to the ball and stays in
Playing; after Back, Select on item 0 returns in Playing with the ball `NewBall settings`,
at (320, 120) with vx = ballSpeed and vy = 0, whatever the ball in flight was. -/
theorem playing_back (g : Game) (b : Ball) (hs : g.state = .StatePlaying)
    (hb : g.ball = some b) :
    (∀ k : Keys, k.escape = true → Update g k = .running { g with state := .StateMainMenu }) ∧
      (∀ k : Keys, k.escape = false →
        Update g k = .running { g with ball := some (physicsStep g.settings b) } ∧
        g.state = .StatePlaying) ∧
      (g.menuItem = 0 →
        runTicks g [Event.Back.keys, Event.Select.keys] =
          .running { g with state := .StatePlaying, ball := some (NewBall g.settings) } ∧
        (NewBall g.settings).x = 320 ∧ (NewBall g.settings).y = 120 ∧
        (NewBall g.settings).velocityX = g.settings.ballSpeed ∧
        (NewBall g.settings).velocityY = 0) := by
  refine ⟨fun k hk => ?_, fun k hk => ⟨?_, hs⟩, fun hm => ⟨?_, ?_, ?_, rfl, rfl⟩⟩
  · simp [Update, hs, updateGame, hk]
  · simp [Update, hs, updateGame, hk, hb]
  · simp [runTicks, Update, hs, updateGame, updateMainMenu, Event.keys, noKeys, hm]
  · norm_num [NewBall, screenWidth]
  · norm_num [NewBall, screenHeight]

/-- Witness of C14: Back then Select while the ball moving right is in flight. -/
theorem playing_back_witness :
    runTicks playingRight [Event.Back.keys, Event.Select.keys] =
      .running { playingRight with
        state := .StatePlaying
        ball := some (NewBall playingRight.settings) } :=
  ((playing_back playingRight rightBall rfl rfl).2.2 rfl).1

/-! ## Runs from the initial session -/

/-- C15: settings are fixed for a ball's lifetime. A returning `Update` in screen Playing
leaves the settings as they were; an `Update` that changes the settings was made in the
settings screen with Right or Left pressed; an `Update` in the settings screen leaves the
ball as it was and does not enter Playing; Playing is entered only with the new ball of the
settings then in force; hence, along every run from the initial session, the ball of a
session in play is the new ball of the current settings stepped under the current
settings, every step with the gravity and bounceFactor of its creation. -/
theorem settings_fixed_in_play :
    (∀ (g : Game) (k : Keys) (g1 : Game), g.state = .StatePlaying →
        Update g k = .running g1 → g1.settings = g.settings) ∧
      (∀ (g : Game) (k : Keys) (g1 : Game), Update g k = .running g1 →
        g1.settings ≠ g.settings → g.state = .StateSettings ∧ (k.right = true ∨ k.left = true)) ∧
      (∀ (g : Game) (k : Keys) (g1 : Game), g.state = .StateSettings →
        Update g k = .running g1 → g1.ball = g.ball ∧ g1.state ≠ .StatePlaying) ∧
      (∀ (g : Game) (k : Keys) (g1 : Game), g.state ≠ .StatePlaying →
        Update g k = .running g1 → g1.state = .StatePlaying →
        g1.settings = g.settings ∧ g1.ball = some (NewBall g.settings)) ∧
      (∀ (ks : List Keys) (g : Game), runTicks NewGame ks = .running g →
        g.state = .StatePlaying →
        ∃ n : Nat, g.ball = some (stepN g.settings n (NewBall g.settings))) := by
  refine ⟨?_, ?_, ?_, ?_, fun ks g h => reachable_lifetimeInv ks g h⟩
  · intro g k g1 hs h
    rw [Update, hs] at h
    exact (updateGame_running g k g1 h).1
  · intro g k g1 h hne
    unfold Update at h
    cases hs : g.state with
    | StateMainMenu =>
      rw [hs] at h
      exact absurd (updateMainMenu_running g k g1 h).1 hne
    | StateSettings =>
      rw [hs] at h
      obtain ⟨g2, h2, -, -, -, hk⟩ := updateSettings_running g k
      rw [h2] at h
      cases h
      exact ⟨rfl, hk hne⟩
    | StatePlaying =>
      rw [hs] at h
      exact absurd (updateGame_running g k g1 h).1 hne
  · intro g k g1 hs h
    rw [Update, hs] at h
    obtain ⟨g2, h2, hb, -, hst, -⟩ := updateSettings_running g k
    rw [h2] at h
    cases h
    refine ⟨hb, fun hp => ?_⟩
    rcases hst with hst | hst
    · rw [hst, hs] at hp; cases hp
    · rw [hst] at hp; cases hp
  · intro g k g1 hs h hp
    unfold Update at h
    cases hst : g.state with
    | StateMainMenu =>
      rw [hst] at h
      obtain ⟨hset, -, hc⟩ := updateMainMenu_running g k g1 h
      rcases hc with ⟨-, hb⟩ | ⟨h1, -⟩ | ⟨h1, -⟩
      · exact ⟨hset, hb⟩
      · rw [h1] at hp; cases hp
      · rw [h1, hst] at hp; cases hp
    | StateSettings =>
      rw [hst] at h
      obtain ⟨g2, h2, -, -, h1, -⟩ := updateSettings_running g k
      rw [h2] at h
      cases h
      rcases h1 with h1 | h1
      · rw [h1, hst] at hp; cases hp
      · rw [h1] at hp; cases hp
    | StatePlaying => exact absurd hst hs

/-- Witness of C15: after Select and one tick of play, the ball is the new ball of the
settings in force, stepped under them. -/
theorem settings_fixed_in_play_witness :
    ∃ n : Nat, firstStep.ball = some (stepN firstStep.settings n (NewBall firstStep.settings)) :=
  settings_fixed_in_play.2.2.2.2 [Event.Select.keys, noKeys] firstStep rfl rfl

/-- C16: step determinism as a two-run statement. Two sessions in play whose balls agree on
x, y, vx, vy and radius and whose settings agree on gravity and bounceFactor return, after a
tick without Escape each, with balls that agree on x, y, vx, vy and radius, whatever their
ballSpeed, ballSize, ballColor, ball colour, cursors and other keys are. -/
theorem step_determinism (g1 g2 : Game) (b1 b2 : Ball) (k1 k2 : Keys)
    (hs1 : g1.state = .StatePlaying) (hs2 : g2.state = .StatePlaying)
    (hb1 : g1.ball = some b1) (hb2 : g2.ball = some b2)
    (hk1 : k1.escape = false) (hk2 : k2.escape = false)
    (hx : b1.x = b2.x) (hy : b1.y = b2.y) (hvx : b1.velocityX = b2.velocityX)
    (hvy : b1.velocityY = b2.velocityY) (hr : b1.radius = b2.radius)
    (hg : g1.settings.gravity = g2.settings.gravity)
    (hbf : g1.settings.bounceFactor = g2.settings.bounceFactor) :
    ∃ c1 c2 : Ball,
      Update g1 k1 = .running { g1 with ball := some c1 } ∧
      Update g2 k2 = .running { g2 with ball := some c2 } ∧
      c1.x = c2.x ∧ c1.y = c2.y ∧ c1.velocityX = c2.velocityX ∧
      c1.velocityY = c2.velocityY ∧ c1.radius = c2.radius := by
  refine ⟨physicsStep g1.settings b1, physicsStep g2.settings b2, ?_, ?_, ?_, ?_, ?_, ?_, ?_⟩
  · exact Update_playing_step g1 k1 b1 hs1 hb1 hk1
  · exact Update_playing_step g2 k2 b2 hs2 hb2 hk2
  · rw [physicsStep_x, physicsStep_x, hx, hvx, hr]
  · rw [physicsStep_y, physicsStep_y, hy, hvy, hr, hg]
  · rw [physicsStep_velocityX, physicsStep_velocityX, hx, hvx, hr, hbf]
  · rw [physicsStep_velocityY, physicsStep_velocityY, hy, hvy, hr, hg, hbf]
  · rw [physicsStep_radius, physicsStep_radius, hr]

/-- Witness of C16: the ball moving right in two sessions that differ in ballSpeed,
ballSize, colours, cursors and keys pressed. -/
theorem step_determinism_witness :
    ∃ c1 c2 : Ball,
      Update playingRight noKeys = .running { playingRight with ball := some c1 } ∧
      Update playingRightOther Event.Down.keys =
        .running { playingRightOther with ball := some c2 } ∧
      c1.x = c2.x ∧ c1.y = c2.y ∧ c1.velocityX = c2.velocityX ∧
      c1.velocityY = c2.velocityY ∧ c1.radius = c2.radius :=
  step_determinism playingRight playingRightOther rightBall
    { rightBall with color := { r := 0, g := 0, b := 255, a := 255 } } noKeys Event.Down.keys
    rfl rfl rfl rfl rfl rfl rfl rfl rfl rfl rfl rfl rfl

/-- C17: cursor-range invariant. The initial session is in the main menu with both cursors
at 0; every returning `Update`, in every screen and for every combination of keys pressed
in the tick, keeps `0 ≤ menuItem < 3` and `0 ≤ settingsItem < 5`; so both hold in every
state of every run from the initial session. -/
theorem cursor_range :
    NewGame.state = .StateMainMenu ∧ NewGame.menuItem = 0 ∧ NewGame.settingsItem = 0 ∧
      (∀ (g : Game) (k : Keys) (g1 : Game),
        0 ≤ g.menuItem ∧ g.menuItem < 3 ∧ 0 ≤ g.settingsItem ∧ g.settingsItem < 5 →
        Update g k = .running g1 →
        0 ≤ g1.menuItem ∧ g1.menuItem < 3 ∧ 0 ≤ g1.settingsItem ∧ g1.settingsItem < 5) ∧
      (∀ (ks : List Keys) (g : Game), runTicks NewGame ks = .running g →
        0 ≤ g.menuItem ∧ g.menuItem < 3 ∧ 0 ≤ g.settingsItem ∧ g.settingsItem < 5) := by
  refine ⟨rfl, rfl, rfl, fun g k g1 hi h => Update_cursorInv g k g1 hi h, fun ks g h => ?_⟩
  exact runTicks_invariant cursorInv Update_cursorInv ks NewGame g (by decide) h

/-- Witness of C17: Up and Down pressed in the same tick on the initial session move the
cursor down and back up. -/
theorem cursor_range_witness :
    0 ≤ NewGame.menuItem ∧ NewGame.menuItem < 3 ∧
      0 ≤ NewGame.settingsItem ∧ NewGame.settingsItem < 5 :=
  cursor_range.2.2.2.2 [bothArrows] NewGame rfl

/-- C18: `Update` is total on reachable states. In every state of every run from the initial
session, a session in screen Playing holds a ball, and every `Update` either returns (with
a nil error) or ends the process, the latter only in the main menu with Enter pressed; no
run from the initial session dereferences a nil ball. -/
theorem update_total :
    (∀ (ks : List Keys) (g : Game), runTicks NewGame ks = .running g →
        (g.state = .StatePlaying → ∃ b : Ball, g.ball = some b) ∧
        (∀ k : Keys, (∃ g1 : Game, Update g k = .running g1) ∨
          (Update g k = .exited ∧ g.state = .StateMainMenu ∧ k.enter = true))) ∧
      (∀ ks : List Keys, runTicks NewGame ks ≠ .nilDeref) := by
  constructor
  · intro ks g h
    have hi := reachable_lifetimeInv ks g h
    refine ⟨fun hp => ?_, fun k => ?_⟩
    · obtain ⟨n, hn⟩ := hi hp
      exact ⟨_, hn⟩
    · cases hu : Update g k with
      | running g1 => exact Or.inl ⟨g1, rfl⟩
      | exited => exact Or.inr ⟨rfl, Update_exited g k hu⟩
      | nilDeref => exact absurd hu (Update_ne_nilDeref g k hi)
  · intro ks
    exact runTicks_ne_nilDeref ks NewGame (fun hp => by cases hp)

/-- Witness of C18: after Select and one tick of play the session holds a ball. -/
theorem update_total_witness : ∃ b : Ball, firstStep.ball = some b :=
  (update_total.1 [Event.Select.keys, noKeys] firstStep rfl).1 rfl

/-- C19: axis independence. The horizontal result of a step, x and vx, is the same for two
pre-states that agree on x, vx, radius and bounceFactor, whatever their y, vy, gravity and
other fields are; a collision on the vertical axis alone leaves vx unchanged and
x = x + vx, and a collision on the horizontal axis alone leaves vy = vy + gravity and
y = y + vy + gravity. -/
theorem axis_independence :
    (∀ (st1 st2 : Settings) (b1 b2 : Ball), b1.x = b2.x → b1.velocityX = b2.velocityX →
        b1.radius = b2.radius → st1.bounceFactor = st2.bounceFactor →
        (physicsStep st1 b1).x = (physicsStep st2 b2).x ∧
        (physicsStep st1 b1).velocityX = (physicsStep st2 b2).velocityX) ∧
      (∀ (st : Settings) (b : Ball), firesY st b → ¬ firesX b →
        (physicsStep st b).velocityX = b.velocityX ∧ (physicsStep st b).x = b.x + b.velocityX) ∧
      (∀ (st : Settings) (b : Ball), firesX b → ¬ firesY st b →
        (physicsStep st b).velocityY = b.velocityY + st.gravity ∧
        (physicsStep st b).y = b.y + (b.velocityY + st.gravity)) := by
  refine ⟨?_, ?_, ?_⟩
  · intro st1 st2 b1 b2 hx hvx hr hbf
    constructor
    · rw [physicsStep_x, physicsStep_x, hx, hvx, hr]
    · rw [physicsStep_velocityX, physicsStep_velocityX, hx, hvx, hr, hbf]
  · intro st b _ hx
    have hc : ¬ (b.x + b.velocityX - b.radius ≤ 0 ∨ b.x + b.velocityX + b.radius ≥ screenWidth) :=
      hx
    rw [physicsStep_velocityX, physicsStep_x, if_neg hc, if_neg hc]
    exact ⟨rfl, rfl⟩
  · intro st b _ hy
    have hc : ¬ (b.y + (b.velocityY + st.gravity) - b.radius ≤ 0 ∨
        b.y + (b.velocityY + st.gravity) + b.radius ≥ screenHeight) := hy
    rw [physicsStep_velocityY, physicsStep_y, if_neg hc, if_neg hc]
    exact ⟨rfl, rfl⟩

/-- Witness of C19: the ball moving right meets the right wall only; its vertical result is
the plain integration under the default gravity. -/
theorem axis_independence_witness :
    (physicsStep NewGame.settings rightBall).velocityY =
        rightBall.velocityY + NewGame.settings.gravity ∧
      (physicsStep NewGame.settings rightBall).y =
        rightBall.y + (rightBall.velocityY + NewGame.settings.gravity) :=
  axis_independence.2.2 NewGame.settings rightBall
    (by norm_num [firesX, wallTest, rightBall, screenWidth])
    (by norm_num [firesY, wallTest, rightBall, NewGame, screenHeight])

/-- C20: ball and settings agree. A physics step never changes the radius or the colour of
the ball; in every state in screen Playing of every run from the initial session, the ball
has radius = ballSize and colour = ballColor of the current settings; so when ballSize is
below 240 (hence below 320), a tick without Escape returns with the stepped ball inside
the screen. -/
theorem ball_settings_agreement :
    (∀ (st : Settings) (b : Ball),
        (physicsStep st b).radius = b.radius ∧ (physicsStep st b).color = b.color) ∧
      (∀ (ks : List Keys) (g : Game), runTicks NewGame ks = .running g →
        g.state = .StatePlaying →
        ∃ b : Ball, g.ball = some b ∧ b.radius = g.settings.ballSize ∧
          b.color = g.settings.ballColor ∧
          (g.settings.ballSize < 240 → ∀ k : Keys, k.escape = false →
            Update g k = .running { g with ball := some (physicsStep g.settings b) } ∧
            0 ≤ (physicsStep g.settings b).x - (physicsStep g.settings b).radius ∧
            (physicsStep g.settings b).x + (physicsStep g.settings b).radius ≤ 640 ∧
            0 ≤ (physicsStep g.settings b).y - (physicsStep g.settings b).radius ∧
            (physicsStep g.settings b).y + (physicsStep g.settings b).radius ≤ 480)) := by
  refine ⟨fun st b => ⟨physicsStep_radius st b, physicsStep_color st b⟩, ?_⟩
  intro ks g h hp
  obtain ⟨n, hn⟩ := reachable_lifetimeInv ks g h hp
  have hr : (stepN g.settings n (NewBall g.settings)).radius = g.settings.ballSize := by
    rw [stepN_radius]; rfl
  refine ⟨_, hn, hr, ?_, fun hsz k hk => ⟨Update_playing_step g k _ hp hn hk, ?_⟩⟩
  · rw [stepN_color]; rfl
  · exact physicsStep_contained g.settings _ (by rw [hr]; exact le_of_lt hsz)

/-- Witness of C20: after Select and one tick of play the ball has the radius and the colour
of the default settings. -/
theorem ball_settings_agreement_witness :
    ∃ b : Ball, firstStep.ball = some b ∧ b.radius = firstStep.settings.ballSize ∧
      b.color = firstStep.settings.ballColor := by
  obtain ⟨b, hb, hr, hc, -⟩ :=
    ball_settings_agreement.2 [Event.Select.keys, noKeys] firstStep rfl rfl
  exact ⟨b, hb, hr, hc⟩

end Jps
